import Mathlib

/-!
Formal model of `src/dswx_sar/mosaic_gcov_frame.py` (DSWX-SAR mosaicking
pipeline).  Pure fragments of the Python code are translated into executable
Lean definitions.  The stateful pipeline is modelled further below as an
explicit trace of side-effect events together with the Python local-variable
environment that the source threads across its loops.
-/

namespace DswxMosaic

/-! ### Tiling engine: `slice_gen` (mosaic_gcov_frame.py, lines 684-721) -/

/-- Number of elements of Python `range(start, stop, step)` for a positive
step (zero for an empty range). -/
def pyRangeLen (start stop step : Int) : Nat :=
  if start < stop ∧ 0 < step then ((stop - start - 1) / step + 1).toNat else 0

/-- Python `range(start, stop, step)` with a positive step, as the list of the
produced values. -/
def pyRange (start stop step : Int) : List Int :=
  (List.range (pyRangeLen start stop step)).map (fun i => start + (i : Int) * step)

/-- `slice_gen(total_size, batch_size, combine_rem)`.  Each yielded Python
`slice(a, b)` is modelled as the pair `(a, b)` of its `start`/`stop` fields,
which is exactly how `read_write_rtc` consumes the slices (it never applies
them to a sequence, it reads `.start`/`.stop` arithmetically). -/
def sliceGen (total_size batch_size : Nat) (combine_rem : Bool) : List (Int × Int) :=
  let num_complete_blks := total_size / batch_size
  let num_total_complete := num_complete_blks * batch_size
  let num_rem := total_size - num_total_complete
  if combine_rem ∧ 0 < num_rem then
    (pyRange 0 ((num_total_complete : Int) - (batch_size : Int)) (batch_size : Int)).map
      (fun start_idx => (start_idx, start_idx + (batch_size : Int)))
    ++ [((num_total_complete : Int) - (batch_size : Int), (total_size : Int))]
  else
    (pyRange 0 (num_total_complete : Int) (batch_size : Int)).map
      (fun start_idx => (start_idx, start_idx + (batch_size : Int)))

/-- The property claimed for the tiling engine: the yielded ranges are ordered
and pairwise disjoint, they cover `[0, total)` exactly (every index inside and
no index outside), and every range except possibly the first has length at
least `block`. -/
def sliceGenPartitionClaim (total block : Nat) : Prop :=
  List.Pairwise (fun p q : Int × Int => p.2 ≤ q.1) (sliceGen total block true) ∧
  (∀ i : Int, (∃ p ∈ sliceGen total block true, p.1 ≤ i ∧ i < p.2) ↔
      (0 ≤ i ∧ i < (total : Int))) ∧
  (∀ p ∈ (sliceGen total block true).drop 1, (block : Int) ≤ p.2 - p.1)

/-! ### Value sanitization inside `read_write_rtc` (lines 546-574)

Only exact IEEE-754 operations occur in the sanitization (comparisons against
the exactly representable `float32` value `500.0`, equality with `0`, and
plain assignment), so finite floats are modelled faithfully by rationals,
with the three non-finite classes made explicit. -/

/-- A `float32` sample: positive infinity, negative infinity, NaN, or a
finite value (modelled as a rational; every operation performed on it by the
code is exact). -/
inductive FVal
  | pinf
  | ninf
  | nan
  | fin (q : ℚ)
deriving DecidableEq, Repr

/-- `np.isinf`: true on both infinities (sign is not inspected). -/
def np_isinf : FVal → Bool
  | .pinf => true
  | .ninf => true
  | _ => false

/-- IEEE comparison `v > d` for a finite `d`: NaN compares false, `+inf`
compares true, `-inf` compares false. -/
def fvalGtF (v : FVal) (d : ℚ) : Bool :=
  match v with
  | .pinf => true
  | .ninf => false
  | .nan => false
  | .fin q => decide (d < q)

/-- IEEE comparison `v == 0`: NaN and the infinities compare false. -/
def fvalEqZero : FVal → Bool
  | .fin q => decide (q = 0)
  | _ => false

/-- The three masked assignments of `read_write_rtc` applied to one block
(`ds_blk[np.isinf(ds_blk)] = designated_value`;
`ds_blk[ds_blk > designated_value] = designated_value`;
`ds_blk[ds_blk == 0] = np.nan`), in source order. -/
def sanitizeBlock (designated_value : ℚ) (ds_blk : List FVal) : List FVal :=
  let b1 := ds_blk.map (fun v => if np_isinf v then FVal.fin designated_value else v)
  let b2 := b1.map (fun v => if fvalGtF v designated_value then FVal.fin designated_value else v)
  b2.map (fun v => if fvalEqZero v then FVal.nan else v)

/-- The per-element mapping asserted by the specification sentence of C3:
positive infinity becomes `500.0`, any value greater than `500.0` becomes
`500.0`, an exact `0` becomes NaN, and every *other* value (hence also
negative infinity) is unchanged. -/
def sanitizeSpecClaim (v : FVal) : FVal :=
  match v with
  | .pinf => .fin 500
  | .fin q => if 500 < q then .fin 500 else if q = 0 then .nan else .fin q
  | w => w

/-- The amended per-element mapping: *both* infinities become `500.0` (the
code masks with `np.isinf`, which is sign-blind); values above `500.0` clamp
to `500.0`; an exact `0` becomes NaN; every other value (including NaN) is
unchanged. -/
def sanitizeSpecAmended (v : FVal) : FVal :=
  match v with
  | .pinf => .fin 500
  | .ninf => .fin 500
  | .nan => .nan
  | .fin q => if 500 < q then .fin 500 else if q = 0 then .nan else .fin q

theorem sanitize_elt (v : FVal) :
    (if fvalEqZero
        (if fvalGtF (if np_isinf v then FVal.fin 500 else v) 500 then FVal.fin 500
         else if np_isinf v then FVal.fin 500 else v) then FVal.nan
     else if fvalGtF (if np_isinf v then FVal.fin 500 else v) 500 then FVal.fin 500
     else if np_isinf v then FVal.fin 500 else v) = sanitizeSpecAmended v := by
  cases v with
  | pinf => norm_num [np_isinf, fvalGtF, fvalEqZero, sanitizeSpecAmended]
  | ninf => norm_num [np_isinf, fvalGtF, fvalEqZero, sanitizeSpecAmended]
  | nan => norm_num [np_isinf, fvalGtF, fvalEqZero, sanitizeSpecAmended]
  | fin q =>
    by_cases h1 : (500 : ℚ) < q
    · have hq : ¬ q = 0 := by intro h; rw [h] at h1; norm_num at h1
      simp [np_isinf, fvalGtF, fvalEqZero, sanitizeSpecAmended, h1]
    · by_cases h2 : q = 0
      · subst h2
        norm_num [np_isinf, fvalGtF, fvalEqZero, sanitizeSpecAmended]
      · simp [np_isinf, fvalGtF, fvalEqZero, sanitizeSpecAmended, h1, h2]

theorem sanitizeBlock_eq_map (blk : List FVal) :
    sanitizeBlock 500 blk = blk.map sanitizeSpecAmended := by
  unfold sanitizeBlock
  simp only [List.map_map]
  have h : ∀ v : FVal,
      ((fun v => if fvalEqZero v then FVal.nan else v) ∘
        (fun v => if fvalGtF v 500 then FVal.fin 500 else v) ∘
        (fun v => if np_isinf v then FVal.fin 500 else v)) v = sanitizeSpecAmended v := by
    intro v
    exact sanitize_elt v
  rw [funext h]

/-! ### `read_write_rtc` (lines 491-576) -/

/-- The persistent attributes of an `RTCReader` instance (set in
`__init__`). -/
structure RTCReader where
  row_blk_size : Nat
  col_blk_size : Nat
deriving DecidableEq, Repr

/-- One `dst.write(ds_blk, 1, window=Window(...))` call. -/
structure BlockWrite where
  xoff : Int
  yoff : Int
  xsize : Int
  ysize : Int
  data : List FVal
deriving DecidableEq, Repr

/-- The GeoTIFF produced by `read_write_rtc`: creation parameters of the
`rasterio.open` call, the sequence of window writes, and the metadata tags
set at the end. -/
structure RasterOut where
  path : String
  height : Nat
  width : Nat
  crs : String
  transform : Nat
  writes : List BlockWrite
  tags : Nat
deriving DecidableEq, Repr

/-- `h5_ds.ReadAsArray(xoff, yoff, xsize, ysize)`: the requested sub-rectangle
of the source array (the source is modelled as a total function on integer
row/column indices), flattened row-major. -/
def ReadAsArray (h5_ds : Int → Int → FVal) (xoff yoff xsize ysize : Int) : List FVal :=
  (List.range ysize.toNat).flatMap (fun r =>
    (List.range xsize.toNat).map (fun c => h5_ds (yoff + (r : Int)) (xoff + (c : Int))))

/-- `RTCReader.read_write_rtc`.  The `row_blk_size` / `col_blk_size`
*parameters* are rebound to the instance attributes on the first two lines of
the body, exactly as in the source (lines 531-532). -/
def read_write_rtc (self : RTCReader) (h5_ds : Int → Int → FVal)
    (output_gtiff : String) (num_rows num_cols : Nat)
    (row_blk_size col_blk_size : Nat) (designated_value : ℚ)
    (geotransform : Nat) (crs : String) (dswx_metadata_dict : Nat) : RasterOut :=
  let row_blk_size := self.row_blk_size
  let col_blk_size := self.col_blk_size
  { path := output_gtiff
    height := num_rows
    width := num_cols
    crs := crs
    transform := geotransform
    writes :=
      (sliceGen num_rows row_blk_size true).flatMap (fun slice_row =>
        let row_slice_size := slice_row.2 - slice_row.1
        (sliceGen num_cols col_blk_size true).map (fun slice_col =>
          let col_slice_size := slice_col.2 - slice_col.1
          let ds_blk := ReadAsArray h5_ds slice_col.1 slice_row.1 col_slice_size row_slice_size
          let ds_blk := sanitizeBlock designated_value ds_blk
          { xoff := slice_col.1
            yoff := slice_row.1
            xsize := col_slice_size
            ysize := row_slice_size
            data := ds_blk }))
    tags := dswx_metadata_dict }

/-! ### Claims C1, C2, C3, C10 -/

/-- C1: the claim states that for every `total ≥ 0` and `block > 0` the ranges
yielded by `slice_gen(total, block, combine_rem=True)` partition `[0, total)`
exactly.  The code violates this: for `0 < total < block` there is no complete
block, and the merged "last" range is `slice(0 - block, total)`, whose start
is negative, so indices outside `[0, total)` are covered.  At `total = 3`,
`block = 5` the generator yields exactly `slice(-5, 3)`. -/
theorem c1_slice_gen_partition_bug :
    sliceGen 3 5 true = [((-5 : Int), (3 : Int))] ∧ ¬ sliceGenPartitionClaim 3 5 := by
  have e : sliceGen 3 5 true = [((-5 : Int), (3 : Int))] := by decide
  refine ⟨e, fun h => ?_⟩
  obtain ⟨-, hcov, -⟩ := h
  have hmem : ∃ p ∈ sliceGen 3 5 true, p.1 ≤ (-1 : Int) ∧ (-1 : Int) < p.2 := by
    rw [e]
    exact ⟨((-5 : Int), (3 : Int)), by simp, by norm_num⟩
  have h1 := (hcov (-1)).mp hmem
  norm_num at h1

/-- C2: the claim states that `0 < total < block` yields exactly one range
equal to the full extent `[0, total)`, and `total = 0` yields nothing.  The
second part holds, but for `0 < total < block` the code yields the single
range `(-block, total)` instead of `(0, total)`: at `total = 1`, `block = 2`
it yields `slice(-2, 1)`. -/
theorem c2_slice_gen_small_total_bug :
    sliceGen 1 2 true = [((-2 : Int), (1 : Int))] ∧
    sliceGen 0 2 true = ([] : List (Int × Int)) ∧
    ((-2 : Int), (1 : Int)) ≠ ((0 : Int), (1 : Int)) := by decide

/-- C3 counterexample: the claim says every value other than `+inf`, values
above `500.0` and exact `0` is written unchanged — hence `-inf` should pass
through.  On a 1×1 raster whose only sample is `-inf`, `read_write_rtc`
writes `500.0` (the `np.isinf` mask catches negative infinity too), while the
claimed mapping leaves `-inf` unchanged. -/
theorem c3_neg_inf_counterexample :
    (read_write_rtc ⟨1, 1⟩ (fun _ _ => FVal.ninf) "o.tif" 1 1 1 1 500 0 "c" 0).writes
      = [⟨0, 0, 1, 1, [FVal.fin 500]⟩] ∧
    sanitizeSpecClaim FVal.ninf = FVal.ninf ∧
    FVal.fin 500 ≠ FVal.ninf := by decide

/-- C3 (amended): every block written by `read_write_rtc` (with the fixed
sentinel `500.0`) relates to the source sub-rectangle elementwise by: *any*
infinity becomes `500.0`, any finite value above `500.0` becomes `500.0`,
exact `0` becomes NaN, and every other value (including NaN) is unchanged. -/
theorem c3_sanitization_amended (self : RTCReader) (h5_ds : Int → Int → FVal)
    (out : String) (num_rows num_cols rbs cbs : Nat) (gt md : Nat) (crs : String)
    (w : BlockWrite)
    (hw : w ∈ (read_write_rtc self h5_ds out num_rows num_cols rbs cbs 500 gt crs md).writes) :
    w.data = (ReadAsArray h5_ds w.xoff w.yoff w.xsize w.ysize).map sanitizeSpecAmended := by
  simp only [read_write_rtc, List.mem_flatMap, List.mem_map] at hw
  obtain ⟨sr, - , sc, -, rfl⟩ := hw
  simpa using sanitizeBlock_eq_map
    (ReadAsArray h5_ds sc.1 sr.1 (sc.2 - sc.1) (sr.2 - sr.1))

/-- C3 amended, witnessed at a concrete input: the 1×1 block read from a
source holding `-inf` is written as the amended mapping of that block. -/
theorem c3_sanitization_amended_witness :
    (⟨0, 0, 1, 1, [FVal.fin 500]⟩ : BlockWrite).data
      = (ReadAsArray (fun _ _ => FVal.ninf) 0 0 1 1).map sanitizeSpecAmended := by
  have hw : (⟨0, 0, 1, 1, [FVal.fin 500]⟩ : BlockWrite)
      ∈ (read_write_rtc ⟨1, 1⟩ (fun _ _ => FVal.ninf) "o.tif" 1 1 1 1 500 0 "c" 0).writes := by
    decide
  exact c3_sanitization_amended ⟨1, 1⟩ (fun _ _ => FVal.ninf) "o.tif" 1 1 1 1 0 0 "c"
    ⟨0, 0, 1, 1, [FVal.fin 500]⟩ hw

/-- C10: the `row_blk_size` and `col_blk_size` arguments of `read_write_rtc`
are dead: the body immediately rebinds both names to the instance attributes,
so two calls identical except for those two arguments write identical
rasters. -/
theorem c10_blk_size_params_ignored (self : RTCReader) (h5_ds : Int → Int → FVal)
    (out : String) (num_rows num_cols : Nat) (rbs1 cbs1 rbs2 cbs2 : Nat)
    (d : ℚ) (gt md : Nat) (crs : String) :
    read_write_rtc self h5_ds out num_rows num_cols rbs1 cbs1 d gt crs md =
    read_write_rtc self h5_ds out num_rows num_cols rbs2 cbs2 d gt crs md := rfl

/-! ### Pipeline model

`process_rtc_hdf5` / `write_rtc_geotiff` / `mosaic_rtc_geotiff` are modelled
as trace-producing functions: every externally visible side effect (raster
creation, reprojection, geogrid registration, file replacement, warning,
mosaic invocation) becomes an event.  A run either succeeds with the list of
events it performed, or fails with the Python exception it raises together
with the events performed before the failure.

Python locals that the source reads across loop boundaries (`output_gtiff`,
`num_rows`, `geotransform`, `crs`, `dswx_metadata_dict`, `row_blk_size`,
`col_blk_size`, `layover_exist`, `num_cols`) are modelled explicitly as an
environment of `Option` values; reading an unbound one raises `NameError`,
as in Python. -/

/-- One input GCOV HDF5 archive, as the pipeline observes it: its path,
whether the path exists on the filesystem, the dataset contents read from it
(polarization list, EPSG code, presence of the layover/shadow mask), its
geotransform and metadata record (abstract tokens), and the dimensions of
its channel and layover datasets. -/
structure InputProduct where
  path : String
  onDisk : Bool := true
  pols : List String := ["HH"]
  epsg : Int := 32610
  hasLayover : Bool := true
  geotransform : Nat := 1
  metadata : Nat := 1
  chanRows : Nat := 4
  chanCols : Nat := 4
  layRows : Nat := 4
  layCols : Nat := 4
deriving DecidableEq, Repr

/-- Python exceptions the modelled code can raise. -/
inductive PErr
  | fileNotFound (path : String)
  | polInconsistent
  | nameError (var : String)
  | indexError
deriving DecidableEq, Repr

/-- Externally visible side effects of the pipeline. -/
inductive Ev
  | writeRaster (out : String) (rows cols : Nat) (gt : Nat) (crs : String) (meta : Nat)
  | changeEpsg (input_tif output_tif : String) (epsg_output : Int) (output_nodata : Int)
  | updateGeogrid (tif : String)
  | replaceFile (src dst : String)
  | warnLayover (dataset : String)
  | mosaic (out : String) (inputs : List String) (mode : String)
deriving DecidableEq, Repr

/-- The Python locals of `write_rtc_geotiff` that are read after the loop
iteration that bound them (`none` = not yet bound; reading it raises
`NameError`). -/
structure PyLocals where
  output_gtiff : Option String := none
  num_rows : Option Nat := none
  num_cols : Option Nat := none
  geotransform : Option Nat := none
  crs : Option String := none
  dswx_metadata_dict : Option Nat := none
  row_blk_size : Option Nat := none
  col_blk_size : Option Nat := none
  layover_exist : Option Bool := none
deriving DecidableEq, Repr

instance {ε α : Type} [DecidableEq ε] [DecidableEq α] : DecidableEq (Except ε α) :=
  fun x y =>
    match x, y with
    | .error e, .error f =>
      if h : e = f then .isTrue (h ▸ rfl)
      else .isFalse (fun hc => h (Except.error.inj hc))
    | .ok a, .ok b =>
      if h : a = b then .isTrue (h ▸ rfl)
      else .isFalse (fun hc => h (Except.ok.inj hc))
    | .error _, .ok _ => .isFalse (fun hc => Except.noConfusion hc)
    | .ok _, .error _ => .isFalse (fun hc => Except.noConfusion hc)

/-- Result of a modelled pipeline step: the events performed, then either a
value or the raised exception. -/
abbrev PRes (α : Type) : Type := Except (List Ev × PErr) (List Ev × α)

/-- Sequencing of pipeline steps: events accumulate in order, exceptions
short-circuit but keep the events already performed. -/
def pbind {α β : Type} (x : PRes α) (f : α → PRes β) : PRes β :=
  match x with
  | .error e => .error e
  | .ok (evs, a) =>
    match f a with
    | .error (evs2, e) => .error (evs ++ evs2, e)
    | .ok (evs2, b) => .ok (evs ++ evs2, b)

/-- Perform one side effect. -/
def pemit (e : Ev) : PRes Unit := .ok ([e], ())

/-- Read a Python local; unbound reads raise `NameError`. -/
def pread {α : Type} (x : Option α) (var : String) : PRes α :=
  match x with
  | some a => .ok ([], a)
  | none => .error ([], .nameError var)

theorem pbind_error {α β : Type} (e : List Ev × PErr) (f : α → PRes β) :
    pbind (.error e) f = .error e := rfl

theorem pbind_ok_ok {α β : Type} (evs : List Ev) (a : α) (f : α → PRes β)
    (evs2 : List Ev) (b : β) (h : f a = .ok (evs2, b)) :
    pbind (.ok (evs, a)) f = .ok (evs ++ evs2, b) := by
  simp [pbind, h]

theorem pbind_ok_error {α β : Type} (evs : List Ev) (a : α) (f : α → PRes β)
    (evs2 : List Ev) (e : PErr) (h : f a = .error (evs2, e)) :
    pbind (.ok (evs, a)) f = .error (evs ++ evs2, e) := by
  simp [pbind, h]

theorem pbind_pure {α β : Type} (a : α) (f : α → PRes β) :
    pbind (.ok ([], a)) f = f a := by
  cases h : f a with
  | error e =>
    cases e
    simp [pbind, h]
  | ok v =>
    cases v
    simp [pbind, h]

theorem pbind_seq_ok {β : Type} (evs : List Ev) (x : PRes β) (evs2 : List Ev) (b : β)
    (h : x = .ok (evs2, b)) :
    pbind (.ok (evs, ())) (fun _ => x) = .ok (evs ++ evs2, b) := by
  subst h
  rfl

/-- Prefix a result with already-performed events. -/
def prependEvs {β : Type} (evs : List Ev) : PRes β → PRes β
  | .error (e2, e) => .error (evs ++ e2, e)
  | .ok (e2, b) => .ok (evs ++ e2, b)

theorem pbind_ok {α β : Type} (evs : List Ev) (a : α) (f : α → PRes β) :
    pbind (.ok (evs, a)) f = prependEvs evs (f a) := by
  cases h : f a with
  | error e =>
    cases e
    simp [pbind, prependEvs, h]
  | ok v =>
    cases v
    simp [pbind, prependEvs, h]

theorem prependEvs_ok {β : Type} (evs evs2 : List Ev) (b : β) :
    prependEvs evs (.ok (evs2, b)) = .ok (evs ++ evs2, b) := rfl

/-! #### Path helpers (`pathlib.Path` / `str.split` fragments used by the
source), implemented by structural recursion on the character list so that
they evaluate inside the kernel. -/

/-- Python `str.split(sep)` for a one-character separator. -/
def splitOnChar (c : Char) : List Char → List (List Char)
  | [] => [[]]
  | x :: xs =>
    let r := splitOnChar c xs
    if x = c then [] :: r else (x :: r.headD []) :: r.tail

/-- Join character chunks with a separator (inverse of `splitOnChar`). -/
def joinWithChar (c : Char) : List (List Char) → List Char
  | [] => []
  | [x] => x
  | x :: y :: rest => x ++ c :: joinWithChar c (y :: rest)

/-- `pathlib.Path(p).name`: the final path component. -/
def pathName (p : String) : String := ⟨(splitOnChar '/' p.data).getLastD []⟩

/-- `pathlib.Path(p).stem`: the final component without its last suffix. -/
def pathStem (p : String) : String :=
  let nm := (splitOnChar '/' p.data).getLastD []
  let parts := splitOnChar '.' nm
  if parts.length ≤ 1 then ⟨nm⟩ else ⟨joinWithChar '.' parts.dropLast⟩

/-- `Path(dataset_path).name[:2]` as computed for each dataset path. -/
def dataNameOf (dataset_path : String) : String := ⟨(pathName dataset_path).data.take 2⟩

/-- The pure value computed by `extract_file_name` once the existence check
has passed: `Path(input_rtc).stem.split('-')[0]`. -/
def file_name_of (input_rtc : String) : String :=
  ⟨(splitOnChar '-' (pathStem input_rtc).data).headD []⟩

/-- `extract_file_name` (lines 359-379): checks that the path exists, then
returns the file-name identifier. -/
def extract_file_name (p : InputProduct) : PRes String :=
  if p.onDisk then .ok ([], file_name_of p.path) else .error ([], .fileNotFound p.path)

/-! #### `extract_nisar_polarization` (lines 381-416) -/

/-- Insertion of a string into a sorted list (ascending). -/
def sortedInsert (s : String) : List String → List String
  | [] => [s]
  | t :: ts => if s ≤ t then s :: t :: ts else t :: sortedInsert s ts

/-- `np.sort` on the polarization list: ascending sort. -/
def np_sort (l : List String) : List String := l.foldr sortedInsert []

/-- `np.all(a == b)` for 1-D string arrays, with NumPy broadcasting: arrays
of equal length compare elementwise; a length-one side is stretched against
the other (so against an *empty* other side the comparison is empty and
`np.all` of it is `True`); arrays of different lengths, neither of length
one, do not broadcast and the `==` operator yields the scalar `False`. -/
def np_all_eq (a b : List String) : Bool :=
  if a.length = b.length then
    (a.zip b).all (fun pq => decide (pq.1 = pq.2))
  else if a.length = 1 then
    b.all (fun x => decide (x = a.headD ""))
  else if b.length = 1 then
    a.all (fun x => decide (x = b.headD ""))
  else false

/-- The loop of `extract_nisar_polarization`: `polarizations` starts empty;
a product whose (sorted) list arrives while `polarizations` is still empty
becomes the reference; afterwards a product whose sorted list compares
unequal to the reference under `np.all(polarizations == pols)` (with its
broadcasting semantics, see `np_all_eq`) raises `ValueError`; a product
whose list compares equal — including an empty or repeated-singleton list
against a singleton reference — is silently accepted and leaves the
reference unchanged. -/
def extractPolsLoop (polarizations : List String) : List InputProduct → PRes (List String)
  | [] => .ok ([], polarizations)
  | p :: rest =>
    if p.onDisk then
      let pols := np_sort p.pols
      if polarizations.length = 0 then extractPolsLoop pols rest
      else if np_all_eq polarizations pols then extractPolsLoop polarizations rest
      else .error ([], .polInconsistent)
    else .error ([], .fileNotFound p.path)

/-- `extract_nisar_polarization`: the final decode loop returns the reference
list itself. -/
def extract_nisar_polarization (input_list : List InputProduct) : PRes (List String) :=
  extractPolsLoop [] input_list

/-! #### Dataset-path generation (lines 418-459) -/

/-- `generate_nisar_dataset_name` (list case): `f'{group}{dname * 2}'`. -/
def generate_nisar_dataset_name (data_name : List String) : List String :=
  data_name.map (fun dname => "/science/LSAR/GCOV/grids/frequencyA/" ++ (dname ++ dname))

/-- `generate_nisar_layover_name`. -/
def generate_nisar_layover_name (layover_name : String) : String :=
  "/science/LSAR/GCOV/grids/frequencyA/" ++ layover_name

/-! #### `get_nisar_epsg` (lines 461-489) -/

/-- The per-file reads of `get_nisar_epsg` (h5py open fails on a missing
file). -/
def readEpsgs : List InputProduct → Except PErr (List Int)
  | [] => .ok []
  | p :: rest =>
    if p.onDisk then (readEpsgs rest).map (fun es => p.epsg :: es)
    else .error (.fileNotFound p.path)

/-- `get_nisar_epsg`: reads every projection code, then compares the array
against its first element (`epsg_array[0]` raises `IndexError` on an empty
input list). -/
def get_nisar_epsg (input_list : List InputProduct) : PRes (List Int × Bool) :=
  match readEpsgs input_list with
  | .error e => .error ([], e)
  | .ok [] => .error ([], .indexError)
  | .ok (e0 :: es) => .ok ([], (e0 :: es, (e0 :: es).all (· = e0)))

/-- `read_geodata_hdf5` (lines 578-617): geotransform and the CRS string
`f'EPSG:{epsg}'`. -/
def read_geodata_hdf5 (p : InputProduct) : Nat × String :=
  (p.geotransform, "EPSG:" ++ toString p.epsg)

/-- `read_metadata_hdf5` (lines 619-681): the metadata record. -/
def read_metadata_hdf5 (p : InputProduct) : Nat := p.metadata

/-! #### The staging loop of `write_rtc_geotiff` (lines 151-185) -/

/-- The intermediate GeoTIFF path `f'{scratch_dir}/{out_pfx}_{data_name}.tif'`
for a dataset path `d`. -/
def chanTif (scratch out_pfx d : String) : String :=
  let dn := dataNameOf d
  scratch ++ "/" ++ out_pfx ++ "_" ++ dn ++ ".tif"

/-- The temporary path `f'{scratch_dir}/{in_pfx}_temp_{data_name}.tif'`. -/
def chanTempTif (scratch in_pfx d : String) : String :=
  let dn := dataNameOf d
  scratch ++ "/" ++ in_pfx ++ "_temp_" ++ dn ++ ".tif"

/-- The layover GeoTIFF path `f'{scratch_dir}/{pfx}_layover.tif'`. -/
def layTif (scratch pfx : String) : String := scratch ++ "/" ++ pfx ++ "_layover.tif"

/-- The temporary layover path `f'{scratch_dir}/{pfx}_temp_layover.tif'`. -/
def layTempTif (scratch pfx : String) : String :=
  scratch ++ "/" ++ pfx ++ "_temp_layover.tif"

/-- Inner staging loop over `data_path` for one input (lines 162-185): each
dataset is written out via `read_write_rtc` with the *current* input's
dimensions, geotransform, CRS and metadata, and the locals `output_gtiff`,
`num_rows`, `num_cols`, `row_blk_size`, `col_blk_size` are (re)bound. -/
def stageInner (scratch out_pfx : String) (p : InputProduct) (rbs cbs : Nat)
    (st : PyLocals) : List String → PRes PyLocals
  | [] => .ok ([], st)
  | d :: rest =>
    let output_gtiff := chanTif scratch out_pfx d
    pbind (pemit (.writeRaster output_gtiff p.chanRows p.chanCols
        p.geotransform ("EPSG:" ++ toString p.epsg) p.metadata)) fun _ =>
      stageInner scratch out_pfx p rbs cbs
        { st with output_gtiff := some output_gtiff, num_rows := some p.chanRows,
                  num_cols := some p.chanCols, row_blk_size := some rbs,
                  col_blk_size := some cbs } rest

/-- Outer staging loop over `input_list` (lines 151-185): per input, extract
the file-name identifier (existence check!), read geodata and metadata
(binding the corresponding locals), then run the inner loop. -/
def stageOuter (scratch : String) (data_path : List String) (rbs cbs : Nat)
    (st : PyLocals) : List InputProduct → PRes PyLocals
  | [] => .ok ([], st)
  | p :: rest =>
    pbind (extract_file_name p) fun out_pfx =>
      let geo := read_geodata_hdf5 p
      let md := read_metadata_hdf5 p
      pbind (stageInner scratch out_pfx p rbs cbs
          { st with geotransform := some geo.1, crs := some geo.2,
                    dswx_metadata_dict := some md } data_path) fun st2 =>
        stageOuter scratch data_path rbs cbs st2 rest

/-! #### The CRS-harmonization loop of `write_rtc_geotiff` (lines 188-221) -/

/-- Non-conforming branch, inner loop over `data_path` (lines 193-212): the
raster is reprojected into a temp file with no-data 255, the geogrid is
updated with the *stale* local `output_gtiff` left over from the staging
loop (line 209 uses `output_gtiff`, not the file just reprojected), and the
temp file replaces the original. -/
def harmonizeNCInner (scratch in_pfx : String) (mfe : Int) (st : PyLocals) :
    List String → PRes Unit
  | [] => .ok ([], ())
  | d :: rest =>
    let input_gtiff := chanTif scratch in_pfx d
    let temp_gtiff := chanTempTif scratch in_pfx d
    pbind (pemit (.changeEpsg input_gtiff temp_gtiff mfe 255)) fun _ =>
      pbind (pread st.output_gtiff "output_gtiff") fun output_gtiff =>
        pbind (pemit (.updateGeogrid output_gtiff)) fun _ =>
          pbind (pemit (.replaceFile temp_gtiff input_gtiff)) fun _ =>
            harmonizeNCInner scratch in_pfx mfe st rest

/-- Conforming branch, inner loop over `data_path` (lines 214-220): only the
geogrid is updated, with the raster's own path — and the Python local
`output_gtiff` is *reassigned* here, which feeds later stale reads. -/
def harmonizeCInner (scratch in_pfx : String) (st : PyLocals) :
    List String → PRes PyLocals
  | [] => .ok ([], st)
  | d :: rest =>
    let output_gtiff := chanTif scratch in_pfx d
    pbind (pemit (.updateGeogrid output_gtiff)) fun _ =>
      harmonizeCInner scratch in_pfx { st with output_gtiff := some output_gtiff } rest

/-- Harmonization loop over `input_list` with `epsg_array` indexed alongside
(lines 188-221); exhausting `epsg_array` first would be an `IndexError`. -/
def harmonizeOuter (scratch : String) (data_path : List String) (mfe : Int) :
    List InputProduct → List Int → PyLocals → PRes PyLocals
  | [], _, st => .ok ([], st)
  | _ :: _, [], _ => .error ([], .indexError)
  | p :: rest, e :: es, st =>
    pbind (extract_file_name p) fun in_pfx =>
      if e ≠ mfe then
        pbind (harmonizeNCInner scratch in_pfx mfe st data_path) fun _ =>
          harmonizeOuter scratch data_path mfe rest es st
      else
        pbind (harmonizeCInner scratch in_pfx st data_path) fun st2 =>
          harmonizeOuter scratch data_path mfe rest es st2

/-! #### The layover loop of `write_rtc_geotiff` (lines 223-277) -/

/-- Layover loop (lines 223-277).  On the first input whose layover dataset
cannot be opened: warn, bind `layover_exist := False`, and `break`.
Otherwise `layover_exist := True` and the mask is written via
`read_write_rtc` — with `num_cols` freshly read from the layover dataset but
`num_rows`, `row_blk_size`, `geotransform`, `crs` and `dswx_metadata_dict`
read *stale* from whatever the staging loop last bound; then the EPSG check
reprojects (no-data 255), updates the geogrid with the (not yet replaced)
layover path, and replaces the file. -/
def layoverLoop (scratch layover_path : String) (mfe : Int) (self_cbs : Nat) :
    List InputProduct → List Int → PyLocals → PRes PyLocals
  | [], _, st => .ok ([], st)
  | _ :: _, [], _ => .error ([], .indexError)
  | p :: rest, e :: es, st =>
    let layover_data := "HDF5:" ++ p.path ++ ":/" ++ layover_path
    if p.hasLayover then
      let st := { st with layover_exist := some true }
      pbind (extract_file_name p) fun out_pfx =>
        let output_layover_gtiff := layTif scratch out_pfx
        let st := { st with num_cols := some p.layCols, col_blk_size := some self_cbs }
        pbind (pread st.num_rows "num_rows") fun num_rows =>
          pbind (pread st.row_blk_size "row_blk_size") fun _rbs =>
            pbind (pread st.geotransform "geotransform") fun gt =>
              pbind (pread st.crs "crs") fun crs =>
                pbind (pread st.dswx_metadata_dict "dswx_metadata_dict") fun md =>
                  pbind (pemit (.writeRaster output_layover_gtiff num_rows p.layCols
                      gt crs md)) fun _ =>
                    if e ≠ mfe then
                      pbind (extract_file_name p) fun in_pfx =>
                        pbind (pemit (.changeEpsg (layTif scratch in_pfx)
                            (layTempTif scratch in_pfx) mfe 255)) fun _ =>
                          pbind (pemit (.updateGeogrid output_layover_gtiff)) fun _ =>
                            pbind (pemit (.replaceFile (layTempTif scratch in_pfx)
                                (layTif scratch in_pfx))) fun _ =>
                              layoverLoop scratch layover_path mfe self_cbs rest es st
                    else
                      pbind (pemit (.updateGeogrid output_layover_gtiff)) fun _ =>
                        layoverLoop scratch layover_path mfe self_cbs rest es st
    else
      pbind (pemit (.warnLayover layover_data)) fun _ =>
        .ok ([], { st with layover_exist := some false })

/-- `write_rtc_geotiff` (lines 110-277): majority EPSG, staging loop,
harmonization loop, layover loop, then return `layover_exist` (a `NameError`
if the input list was empty and the name was never bound). -/
def write_rtc_geotiff (self_rbs self_cbs : Nat) (input_list : List InputProduct)
    (output_dir scratch_dir : String) (epsg_array : List Int)
    (data_path : List String) (layover_path : String)
    (majority_element : List Int → Int) : PRes (Bool × PyLocals) :=
  let most_freq_epsg := majority_element epsg_array
  pbind (stageOuter scratch_dir data_path self_rbs self_cbs {} input_list) fun st =>
    pbind (harmonizeOuter scratch_dir data_path most_freq_epsg input_list epsg_array st)
      fun st2 =>
      pbind (layoverLoop scratch_dir layover_path most_freq_epsg self_cbs
          input_list epsg_array st2) fun st3 =>
        pbind (pread st3.layover_exist "layover_exist") fun layover_exist =>
          .ok ([], (layover_exist, st3))

/-! #### `mosaic_rtc_geotiff` (lines 279-357) -/

/-- Collect `f'{scratch_dir}/{in_pfx}_{data_name}.tif'` over the input list
(each `extract_file_name` call re-checks existence). -/
def gatherChanTifs (scratch : String) (d : String) : List InputProduct → PRes (List String)
  | [] => .ok ([], [])
  | p :: rest =>
    pbind (extract_file_name p) fun in_pfx =>
      pbind (gatherChanTifs scratch d rest) fun tifs =>
        .ok ([], chanTif scratch in_pfx d :: tifs)

/-- Collect the layover tif paths over the input list. -/
def gatherLayTifs (scratch : String) : List InputProduct → PRes (List String)
  | [] => .ok ([], [])
  | p :: rest =>
    pbind (extract_file_name p) fun in_pfx =>
      pbind (gatherLayTifs scratch rest) fun tifs =>
        .ok ([], layTif scratch in_pfx :: tifs)

/-- Per-channel mosaic loop (lines 317-336). -/
def mosaicChanLoop (input_list : List InputProduct)
    (output_dir scratch mosaic_mode mosaic_pfx : String) : List String → PRes Unit
  | [] => .ok ([], ())
  | d :: rest =>
    let dn := dataNameOf d
    pbind (gatherChanTifs scratch d input_list) fun tifs =>
      pbind (pemit (.mosaic (output_dir ++ "/" ++ mosaic_pfx ++ "_" ++ dn ++ ".tif")
          tifs mosaic_mode)) fun _ =>
        mosaicChanLoop input_list output_dir scratch mosaic_mode mosaic_pfx rest

/-- `mosaic_rtc_geotiff` (lines 279-357): one mosaic per channel over *all*
inputs, then — only if `layover_exist` — one layover mosaic, again over all
inputs. -/
def mosaic_rtc_geotiff (input_list : List InputProduct) (data_path : List String)
    (output_dir scratch : String) (mosaic_mode mosaic_pfx : String)
    (layover_exist : Bool) : PRes Unit :=
  pbind (mosaicChanLoop input_list output_dir scratch mosaic_mode mosaic_pfx data_path)
    fun _ =>
    if layover_exist then
      pbind (gatherLayTifs scratch input_list) fun tifs =>
        pemit (.mosaic (output_dir ++ "/" ++ mosaic_pfx ++ "_layover.tif")
          tifs mosaic_mode)
    else .ok ([], ())

/-- `process_rtc_hdf5` (lines 41-108): polarization extraction (fail-fast),
dataset-path generation, EPSG collection, intermediate GeoTIFF creation and
harmonization, then mosaicking. -/
def process_rtc_hdf5 (self_rbs self_cbs : Nat) (input_list : List InputProduct)
    (output_dir scratch_dir : String) (mosaic_mode mosaic_pfx : String)
    (majority_element : List Int → Int) : PRes Bool :=
  pbind (extract_nisar_polarization input_list) fun pols_rtc =>
    let data_path := generate_nisar_dataset_name pols_rtc
    let layover_path := generate_nisar_layover_name "layoverShadowMask"
    pbind (get_nisar_epsg input_list) fun ea =>
      pbind (write_rtc_geotiff self_rbs self_cbs input_list output_dir scratch_dir
          ea.1 data_path layover_path majority_element) fun r =>
        pbind (mosaic_rtc_geotiff input_list data_path output_dir scratch_dir
            mosaic_mode mosaic_pfx r.1) fun _ =>
          .ok ([], r.1)

/-! ### Concrete input products used by counterexamples and witnesses -/

/-- Two inputs with different EPSG codes (for the geogrid-staleness bug). -/
def prodA5 : InputProduct := { path := "a", epsg := 32610, hasLayover := false }

def prodB5 : InputProduct := { path := "b", epsg := 32611 }

/-- Two inputs with different geotransform/metadata/dimensions (for the
layover-staleness bug). -/
def prodA6 : InputProduct :=
  { path := "a", geotransform := 1, metadata := 1, chanRows := 4, layRows := 7, layCols := 3 }

def prodB6 : InputProduct :=
  { path := "b", geotransform := 2, metadata := 2, chanRows := 9 }

/-- An input exposing the layover mask. -/
def pLay : InputProduct := { path := "a" }

/-- An input lacking the layover mask. -/
def pNoLay : InputProduct := { path := "b", hasLayover := false }

/-- An input whose `listOfPolarizations` dataset is empty. -/
def pEmptyPols : InputProduct := { path := "a", pols := [] }

/-- An input with polarization list `["HH"]`. -/
def pHH : InputProduct := { path := "b" }

/-- An input with polarization list `["VV"]`. -/
def pVV : InputProduct := { path := "v", pols := ["VV"] }

/-- An input whose path does not exist on the filesystem. -/
def pMissing : InputProduct := { path := "c", onDisk := false }

/-- `true` iff the result succeeded (no exception raised). -/
def presIsOk {α : Type} : PRes α → Bool
  | .ok _ => true
  | .error _ => false

/-- `true` on mosaic-invocation events. -/
def isMosaicEv : Ev → Bool
  | .mosaic _ _ _ => true
  | _ => false

/-! ### Claims C5, C6 (code bugs in `write_rtc_geotiff`) -/

/-- C5: the claim says the geogrid is updated, after a non-conforming
raster's reprojection, with the footprint of that same reprojected raster.
The code (line 209) instead passes the stale staging-loop local
`output_gtiff`.  Concretely: inputs `a` (EPSG 32610) and `b` (EPSG 32611)
with majority 32611; while harmonizing `a`, the geogrid is updated with
`s/b_HH.tif` — the last raster staged, still in its own (here majority) CRS
at that moment — and never with `a`'s reprojected raster `s/a_HH.tif` (nor
its temp file). -/
theorem c5_geogrid_stale_path_bug :
    write_rtc_geotiff 2 2 [prodA5, prodB5] "odir" "s" [32610, 32611] ["HH"]
        "layoverShadowMask" (fun l => l.getLastD 0) = .ok
      ([.writeRaster "s/a_HH.tif" 4 4 1 "EPSG:32610" 1,
        .writeRaster "s/b_HH.tif" 4 4 1 "EPSG:32611" 1,
        .changeEpsg "s/a_HH.tif" "s/a_temp_HH.tif" 32611 255,
        .updateGeogrid "s/b_HH.tif",
        .replaceFile "s/a_temp_HH.tif" "s/a_HH.tif",
        .updateGeogrid "s/b_HH.tif",
        .warnLayover "HDF5:a:/layoverShadowMask"],
       (false,
        { output_gtiff := some "s/b_HH.tif", num_rows := some 4, num_cols := some 4,
          geotransform := some 1, crs := some "EPSG:32611", dswx_metadata_dict := some 1,
          row_blk_size := some 2, col_blk_size := some 2, layover_exist := some false })) ∧
    "s/b_HH.tif" ≠ "s/a_HH.tif" ∧ "s/b_HH.tif" ≠ "s/a_temp_HH.tif" := by decide

/-- C6: the claim says every intermediate raster — including each input's
layover-mask raster — is created with the geotransform, CRS, metadata and
dimensions resolved from its *own* input product.  The layover loop (lines
236-253) instead reuses the stale locals of the *last staged* input: with
input `a` (geotransform 1, metadata 1, layover dims 7×3) and input `b`
(geotransform 2, metadata 2, channel rows 9), `a`'s layover raster is
written with 9 rows (from `b`'s channel dataset), geotransform 2 and
metadata 2 (from `b`), instead of `a`'s own values. -/
theorem c6_layover_stale_geodata_bug :
    write_rtc_geotiff 2 2 [prodA6, prodB6] "odir" "s" [32610, 32610] ["HH"]
        "layoverShadowMask" (fun l => l.headD 0) = .ok
      ([.writeRaster "s/a_HH.tif" 4 4 1 "EPSG:32610" 1,
        .writeRaster "s/b_HH.tif" 9 4 2 "EPSG:32610" 2,
        .updateGeogrid "s/a_HH.tif",
        .updateGeogrid "s/b_HH.tif",
        .writeRaster "s/a_layover.tif" 9 3 2 "EPSG:32610" 2,
        .updateGeogrid "s/a_layover.tif",
        .writeRaster "s/b_layover.tif" 9 4 2 "EPSG:32610" 2,
        .updateGeogrid "s/b_layover.tif"],
       (true,
        { output_gtiff := some "s/b_HH.tif", num_rows := some 9, num_cols := some 4,
          geotransform := some 2, crs := some "EPSG:32610", dswx_metadata_dict := some 2,
          row_blk_size := some 2, col_blk_size := some 2, layover_exist := some true })) ∧
    Ev.writeRaster "s/a_layover.tif" 9 3 2 "EPSG:32610" 2
      ≠ Ev.writeRaster "s/a_layover.tif" prodA6.layRows prodA6.layCols
          prodA6.geotransform "EPSG:32610" prodA6.metadata := by decide

/-! ### Claim C4 — counterexample -/

/-- C4 counterexample: the claim says that if at least one input exposes the
layover mask, a layover mosaic is produced.  With input `a` exposing the
mask and input `b` lacking it, the run succeeds, the channel mosaic is the
*only* mosaic invoked (the layover loop breaks at `b` with
`layover_exist = False`, discarding `a`'s already-written layover raster),
so no layover mosaic is built even though `a` had the mask. -/
theorem c4_layover_skipped_counterexample :
    process_rtc_hdf5 2 2 [pLay, pNoLay] "o" "s" "first" "m" (fun l => l.headD 0) = .ok
      ([.writeRaster "s/a_HH.tif" 4 4 1 "EPSG:32610" 1,
        .writeRaster "s/b_HH.tif" 4 4 1 "EPSG:32610" 1,
        .updateGeogrid "s/a_HH.tif",
        .updateGeogrid "s/b_HH.tif",
        .writeRaster "s/a_layover.tif" 4 4 1 "EPSG:32610" 1,
        .updateGeogrid "s/a_layover.tif",
        .warnLayover "HDF5:b://science/LSAR/GCOV/grids/frequencyA/layoverShadowMask",
        .mosaic "o/m_HH.tif" ["s/a_HH.tif", "s/b_HH.tif"] "first"],
       false) ∧
    pLay.hasLayover = true ∧
    ([Ev.writeRaster "s/a_HH.tif" 4 4 1 "EPSG:32610" 1,
      Ev.writeRaster "s/b_HH.tif" 4 4 1 "EPSG:32610" 1,
      Ev.updateGeogrid "s/a_HH.tif",
      Ev.updateGeogrid "s/b_HH.tif",
      Ev.writeRaster "s/a_layover.tif" 4 4 1 "EPSG:32610" 1,
      Ev.updateGeogrid "s/a_layover.tif",
      Ev.warnLayover "HDF5:b://science/LSAR/GCOV/grids/frequencyA/layoverShadowMask",
      Ev.mosaic "o/m_HH.tif" ["s/a_HH.tif", "s/b_HH.tif"] "first"].filter isMosaicEv)
      = [Ev.mosaic "o/m_HH.tif" ["s/a_HH.tif", "s/b_HH.tif"] "first"] := by decide

/-! ### Claim C7 — counterexample -/

/-- C7 counterexample: the claim says any batch in which some product's
polarization set differs from a previously read product's fails with
`ValueError`.  But a product whose polarization list is *empty* is silently
skipped while the reference is still empty: with inputs `a` (no
polarizations) and `b` (`["HH"]`), the sets differ yet extraction succeeds
(returning `["HH"]`) and the whole run completes without error. -/
theorem c7_empty_pols_counterexample :
    extract_nisar_polarization [pEmptyPols, pHH] = .ok ([], ["HH"]) ∧
    np_sort pEmptyPols.pols ≠ np_sort pHH.pols ∧
    presIsOk (process_rtc_hdf5 2 2 [pEmptyPols, pHH] "o" "s" "first" "m"
      (fun l => l.headD 0)) = true := by decide

/-! ### Claim C8 — counterexample -/

/-- C8 counterexample: the claim says every input list containing a missing
path fails with `FileNotFoundError`.  Faults are raised in scan order: with
inputs `b` (`["HH"]`), `v` (`["VV"]`) and the missing `c`, the polarization
inconsistency between `b` and `v` raises `ValueError` first, so the run does
not raise `FileNotFoundError` although a missing path is present (it still
aborts with no output written). -/
theorem c8_precedence_counterexample :
    pMissing.onDisk = false ∧
    process_rtc_hdf5 2 2 [pHH, pVV, pMissing] "o" "s" "first" "m" (fun l => l.headD 0)
      = .error ([], .polInconsistent) ∧
    PErr.polInconsistent ≠ PErr.fileNotFound pMissing.path := by decide

/-! ### Lemmas about `extract_nisar_polarization` -/

/-- `np.all(l == l)` is true. -/
theorem np_all_eq_refl : ∀ l : List String, np_all_eq l l = true := by
  intro l
  unfold np_all_eq
  rw [if_pos rfl]
  induction l with
  | nil => rfl
  | cons x xs ih => simpa using ih

/-- Once a nonempty reference list is held, any remaining product whose
sorted polarization list compares broadcast-unequal to it makes the loop
raise `ValueError`. -/
theorem extractPolsLoop_error_of_diff (acc : List String) :
    ∀ inputs : List InputProduct, acc ≠ [] →
      (∀ p ∈ inputs, p.onDisk = true) →
      (∃ p ∈ inputs, np_all_eq acc (np_sort p.pols) = false) →
      extractPolsLoop acc inputs = .error ([], .polInconsistent) := by
  intro inputs
  induction inputs with
  | nil => intro _ _ hex; simp at hex
  | cons q rest ih =>
    intro hacc hdisk hex
    have hq : q.onDisk = true := hdisk q (by simp)
    have hlen : ¬ acc.length = 0 := by simpa [List.length_eq_zero] using hacc
    by_cases heq : np_all_eq acc (np_sort q.pols) = true
    · have hrest : ∃ p ∈ rest, np_all_eq acc (np_sort p.pols) = false := by
        obtain ⟨p, hp, hne⟩ := hex
        rcases List.mem_cons.mp hp with h | h
        · exact absurd (h ▸ hne) (by simp [heq])
        · exact ⟨p, h, hne⟩
      simp only [extractPolsLoop, hq, if_true, hlen, if_false]
      rw [if_pos heq]
      exact ih hacc (fun p hp => hdisk p (List.mem_cons_of_mem _ hp)) hrest
    · have hfalse : np_all_eq acc (np_sort q.pols) = false := by simpa using heq
      simp [extractPolsLoop, hq, hlen, hfalse]

/-- Products whose polarization list is empty are skipped while the
reference is still empty. -/
theorem extractPolsLoop_skip_empty :
    ∀ as rest : List InputProduct,
      (∀ a ∈ as, a.onDisk = true) → (∀ a ∈ as, np_sort a.pols = []) →
      extractPolsLoop [] (as ++ rest) = extractPolsLoop [] rest := by
  intro as
  induction as with
  | nil => intro rest _ _; rfl
  | cons a as' ih =>
    intro rest hdisk hempty
    have ha : a.onDisk = true := hdisk a (by simp)
    have he : np_sort a.pols = [] := hempty a (by simp)
    simp only [List.cons_append, extractPolsLoop, ha, if_true, List.length_nil, he]
    exact ih rest (fun p hp => hdisk p (List.mem_cons_of_mem _ hp))
      (fun p hp => hempty p (List.mem_cons_of_mem _ hp))

/-- While the running reference is either empty or equal to `P`, a prefix of
products that all carry sorted list `P` is traversed without fault, and a
missing file then raises `FileNotFoundError`. -/
theorem extractPolsLoop_fnf_aux (P : List String) :
    ∀ (as : List InputProduct) (p : InputProduct) (bs : List InputProduct)
      (acc : List String), acc = [] ∨ acc = P →
      (∀ a ∈ as, a.onDisk = true) → (∀ a ∈ as, np_sort a.pols = P) →
      p.onDisk = false →
      extractPolsLoop acc (as ++ p :: bs) = .error ([], .fileNotFound p.path) := by
  intro as
  induction as with
  | nil =>
    intro p bs acc _ _ _ hmiss
    simp [extractPolsLoop, hmiss]
  | cons a as' ih =>
    intro p bs acc hacc hdisk hpols hmiss
    have ha : a.onDisk = true := hdisk a (by simp)
    have haP : np_sort a.pols = P := hpols a (by simp)
    have hdisk' : ∀ q ∈ as', q.onDisk = true :=
      fun q hq => hdisk q (List.mem_cons_of_mem _ hq)
    have hpols' : ∀ q ∈ as', np_sort q.pols = P :=
      fun q hq => hpols q (List.mem_cons_of_mem _ hq)
    by_cases hlen : acc.length = 0
    · have : acc = [] := List.length_eq_zero.mp hlen
      subst this
      simp only [List.cons_append, extractPolsLoop, ha, if_true, List.length_nil, if_pos]
      rw [haP]
      exact ih p bs P (Or.inr rfl) hdisk' hpols' hmiss
    · have hne : acc ≠ [] := fun h => hlen (by simp [h])
      have haccP : acc = P := by
        rcases hacc with h | h
        · exact absurd h hne
        · exact h
      have heq : np_all_eq acc (np_sort a.pols) = true := by
        rw [haccP, haP]
        exact np_all_eq_refl P
      simp only [List.cons_append, extractPolsLoop, ha, if_true, hlen, if_false]
      rw [if_pos heq]
      exact ih p bs acc hacc hdisk' hpols' hmiss

/-! ### Claims C7, C8 — amended theorems -/

/-- C7 (amended): the schema-inconsistency fault is raised relative to the
*first nonempty* sorted polarization list in scan order, and only for a
product whose sorted list compares unequal to that reference under NumPy's
broadcasting equality `np.all(reference == pols)` (`np_all_eq`) — so an
empty or repeated-singleton list against a singleton reference is silently
accepted.  If every product exists, the products before `p` all have empty
polarization lists, `p`'s sorted list is nonempty, and some later product's
sorted list compares broadcast-unequal to `p`'s, then `process_rtc_hdf5`
fails with `ValueError` having performed no side effect — in particular
before any raster is written.  (Products with empty lists read before the
reference is set do not trigger the fault, as the counterexample shows.) -/
theorem c7_schema_fault_amended (as bs : List InputProduct) (p : InputProduct)
    (hdisk : ∀ q ∈ as ++ p :: bs, q.onDisk = true)
    (hskip : ∀ a ∈ as, np_sort a.pols = [])
    (hp : np_sort p.pols ≠ [])
    (hdiff : ∃ q ∈ bs, np_all_eq (np_sort p.pols) (np_sort q.pols) = false)
    (self_rbs self_cbs : Nat) (output_dir scratch mode mfx : String)
    (maj : List Int → Int) :
    process_rtc_hdf5 self_rbs self_cbs (as ++ p :: bs) output_dir scratch mode mfx maj
      = .error ([], .polInconsistent) := by
  have hpd : p.onDisk = true := hdisk p (by simp)
  have he : extract_nisar_polarization (as ++ p :: bs)
      = .error ([], .polInconsistent) := by
    unfold extract_nisar_polarization
    rw [extractPolsLoop_skip_empty as (p :: bs)
      (fun a ha => hdisk a (List.mem_append_left _ ha)) hskip]
    simp only [extractPolsLoop, hpd, if_true, List.length_nil, if_pos]
    exact extractPolsLoop_error_of_diff (np_sort p.pols) bs hp
      (fun q hq => hdisk q (List.mem_append_right _ (List.mem_cons_of_mem _ hq))) hdiff
  unfold process_rtc_hdf5
  rw [he]
  rfl

/-- C7 amended, witnessed: inputs `["HH"]` then `["VV"]` fail with
`ValueError` and no side effects. -/
theorem c7_schema_fault_amended_witness :
    process_rtc_hdf5 2 2 [pHH, pVV] "o" "s" "first" "m" (fun l => l.headD 0)
      = .error ([], .polInconsistent) :=
  c7_schema_fault_amended [] [pVV] pHH (by decide) (by simp) (by decide)
    ⟨pVV, by simp, by decide⟩ 2 2 "o" "s" "first" "m" (fun l => l.headD 0)

/-- C8 (amended): a missing input path makes the run abort with
`FileNotFoundError` and no side effect — in particular before any output is
written — *provided* the products read before it in scan order share one
sorted polarization list.  Faults are detected input by input, so a
schema-inconsistency among the earlier inputs *can* preempt the
`FileNotFoundError`, as the counterexample shows; no claim is made about
which fault wins in other configurations. -/
theorem c8_fnf_amended (as bs : List InputProduct) (p : InputProduct) (P : List String)
    (hdisk : ∀ a ∈ as, a.onDisk = true)
    (hpols : ∀ a ∈ as, np_sort a.pols = P)
    (hmiss : p.onDisk = false)
    (self_rbs self_cbs : Nat) (output_dir scratch mode mfx : String)
    (maj : List Int → Int) :
    process_rtc_hdf5 self_rbs self_cbs (as ++ p :: bs) output_dir scratch mode mfx maj
      = .error ([], .fileNotFound p.path) := by
  have he : extract_nisar_polarization (as ++ p :: bs)
      = .error ([], .fileNotFound p.path) :=
    extractPolsLoop_fnf_aux P as p bs [] (Or.inl rfl) hdisk hpols hmiss
  unfold process_rtc_hdf5
  rw [he]
  rfl

/-- C8 amended, witnessed: input `b` followed by the missing `c` fails with
`FileNotFoundError` for `c` and no side effects. -/
theorem c8_fnf_amended_witness :
    process_rtc_hdf5 2 2 [pHH, pMissing] "o" "s" "first" "m" (fun l => l.headD 0)
      = .error ([], .fileNotFound "c") :=
  c8_fnf_amended [pHH] [] pMissing ["HH"] (by decide) (by decide) (by decide)
    2 2 "o" "s" "first" "m" (fun l => l.headD 0)

/-! ### Characterization of the CRS-harmonization loop (claim C9) -/

/-- The path of the last intermediate raster named by a conforming input's
inner loop, or the incoming stale value if there are no datasets. -/
def lastStale (scratch pfx : String) (data_path : List String) (stale : String) : String :=
  data_path.foldl (fun _prev d => chanTif scratch pfx d) stale

/-- The value of the Python local `output_gtiff` after the harmonization
loop, given its value `stale` on entry. -/
def staleAfter (scratch : String) (data_path : List String) (mfe : Int) :
    List InputProduct → List Int → String → String
  | [], _, stale => stale
  | _ :: _, [], stale => stale
  | p :: rest, e :: es, stale =>
    if e ≠ mfe then staleAfter scratch data_path mfe rest es stale
    else staleAfter scratch data_path mfe rest es
      (lastStale scratch (file_name_of p.path) data_path stale)

/-- The event trace that the specification's harmonize step describes (with
the stale-geogrid path made explicit): a non-conforming input contributes,
per dataset, exactly a reprojection of its own raster into its temp file
with no-data 255, a geogrid update (of the current stale local), and the
replacement of its raster by the temp file; a conforming input contributes
only one geogrid update per dataset, on the raster's own path — its files
are never reprojected or replaced. -/
def harmonizeSpecTrace (scratch : String) (data_path : List String) (mfe : Int) :
    List InputProduct → List Int → String → List Ev
  | [], _, _ => []
  | _ :: _, [], _ => []
  | p :: rest, e :: es, stale =>
    let pfx := file_name_of p.path
    if e ≠ mfe then
      (data_path.flatMap fun d =>
        [Ev.changeEpsg (chanTif scratch pfx d) (chanTempTif scratch pfx d) mfe 255,
         Ev.updateGeogrid stale,
         Ev.replaceFile (chanTempTif scratch pfx d) (chanTif scratch pfx d)])
      ++ harmonizeSpecTrace scratch data_path mfe rest es stale
    else
      (data_path.map fun d => Ev.updateGeogrid (chanTif scratch pfx d))
      ++ harmonizeSpecTrace scratch data_path mfe rest es
          (lastStale scratch pfx data_path stale)

theorem harmonizeNCInner_spec (scratch pfx : String) (mfe : Int) (st : PyLocals)
    (stale : String) (hst : st.output_gtiff = some stale) :
    ∀ dps : List String, harmonizeNCInner scratch pfx mfe st dps
      = .ok (dps.flatMap (fun d =>
          [Ev.changeEpsg (chanTif scratch pfx d) (chanTempTif scratch pfx d) mfe 255,
           Ev.updateGeogrid stale,
           Ev.replaceFile (chanTempTif scratch pfx d) (chanTif scratch pfx d)]), ()) := by
  intro dps
  induction dps with
  | nil => simp [harmonizeNCInner]
  | cons d rest ih => simp [harmonizeNCInner, pemit, pread, pbind, hst, ih]

theorem harmonizeCInner_spec (scratch pfx : String) :
    ∀ (dps : List String) (st : PyLocals),
      harmonizeCInner scratch pfx st dps
        = .ok (dps.map (fun d => Ev.updateGeogrid (chanTif scratch pfx d)),
            { st with output_gtiff :=
                dps.foldl (fun _prev d => some (chanTif scratch pfx d)) st.output_gtiff }) := by
  intro dps
  induction dps with
  | nil => intro st; rfl
  | cons d rest ih =>
    intro st
    simp [harmonizeCInner, pemit, pbind, ih]

theorem foldl_last_some (f : String → String) :
    ∀ (dps : List String) (stale : String),
      dps.foldl (fun _prev d => some (f d)) (some stale)
        = some (dps.foldl (fun _prev d => f d) stale) := by
  intro dps
  induction dps with
  | nil => intro stale; rfl
  | cons d rest ih => intro stale; simpa using ih (f d)

/-- Exact characterization of the channel-harmonization loop: given a run
on existing inputs with the staging loop's `output_gtiff` local holding
`stale`, the loop succeeds, its event trace is `harmonizeSpecTrace`, and
only the `output_gtiff` local changes. -/
theorem harmonizeOuter_spec (scratch : String) (data_path : List String) (mfe : Int) :
    ∀ (inputs : List InputProduct) (epsgs : List Int) (st : PyLocals) (stale : String),
      (∀ p ∈ inputs, p.onDisk = true) →
      inputs.length ≤ epsgs.length →
      st.output_gtiff = some stale →
      harmonizeOuter scratch data_path mfe inputs epsgs st
        = .ok (harmonizeSpecTrace scratch data_path mfe inputs epsgs stale,
            { st with
                output_gtiff := some (staleAfter scratch data_path mfe inputs epsgs stale) }) := by
  intro inputs
  induction inputs with
  | nil =>
    intro epsgs st stale _ _ hst
    show Except.ok ([], st) = Except.ok ([], { st with output_gtiff := some stale })
    rw [← hst]
  | cons p rest ih =>
    intro epsgs st stale hdisk hlen hst
    match epsgs with
    | [] => simp at hlen
    | e :: es =>
      have hp : p.onDisk = true := hdisk p (by simp)
      have hdisk' : ∀ q ∈ rest, q.onDisk = true :=
        fun q hq => hdisk q (List.mem_cons_of_mem _ hq)
      have hlen' : rest.length ≤ es.length := by simpa using hlen
      simp only [harmonizeOuter, extract_file_name, hp, if_true]
      rw [pbind_pure]
      by_cases hc : e ≠ mfe
      · rw [if_pos hc]
        rw [harmonizeNCInner_spec scratch (file_name_of p.path) mfe st stale hst data_path]
        rw [pbind_seq_ok _ _ _ _ (ih es st stale hdisk' hlen' hst)]
        simp [harmonizeSpecTrace, staleAfter, hc]
      · rw [if_neg hc]
        rw [harmonizeCInner_spec scratch (file_name_of p.path) data_path st]
        set stX : PyLocals := { st with
          output_gtiff := data_path.foldl
            (fun _prev d => some (chanTif scratch (file_name_of p.path) d))
            st.output_gtiff } with hstXdef
        have hfold : stX.output_gtiff
            = some (lastStale scratch (file_name_of p.path) data_path stale) := by
          show data_path.foldl
              (fun _prev d => some (chanTif scratch (file_name_of p.path) d))
              st.output_gtiff = _
          rw [hst]
          exact foldl_last_some (chanTif scratch (file_name_of p.path)) data_path stale
        rw [pbind_ok_ok _ stX
          (fun st2 => harmonizeOuter scratch data_path mfe rest es st2) _ _
          (ih es stX (lastStale scratch (file_name_of p.path) data_path stale)
            hdisk' hlen' hfold)]
        simp [harmonizeSpecTrace, staleAfter, hc, hstXdef]

/-- C9: for every input whose CRS equals the majority CRS the harmonize loop
leaves the input's rasters untouched — its per-dataset contribution to the
trace is exactly one geogrid update on the raster's own path, with no
`changeEpsg` and no `replaceFile` — while every non-conforming input's
rasters are, per dataset, reprojected into a temp file with no-data 255 and
then replaced in place by it.  This is stated as the exact trace equality
with `harmonizeSpecTrace`, whose two branches are precisely these event
patterns. -/
theorem c9_conforming_untouched (scratch : String) (data_path : List String)
    (mfe : Int) (inputs : List InputProduct) (epsgs : List Int) (st : PyLocals)
    (stale : String)
    (hdisk : ∀ p ∈ inputs, p.onDisk = true)
    (hlen : inputs.length ≤ epsgs.length)
    (hst : st.output_gtiff = some stale) :
    harmonizeOuter scratch data_path mfe inputs epsgs st
      = .ok (harmonizeSpecTrace scratch data_path mfe inputs epsgs stale,
          { st with
              output_gtiff := some (staleAfter scratch data_path mfe inputs epsgs stale) }) :=
  harmonizeOuter_spec scratch data_path mfe inputs epsgs st stale hdisk hlen hst

/-- C9, witnessed on a concrete run: input `a` (EPSG 32610, non-conforming)
and input `b` (EPSG 32611 = majority, conforming). -/
theorem c9_conforming_untouched_witness :
    harmonizeOuter "s" ["HH"] 32611 [prodA5, prodB5] [32610, 32611]
        { output_gtiff := some "t" }
      = .ok (harmonizeSpecTrace "s" ["HH"] 32611 [prodA5, prodB5] [32610, 32611] "t",
          { output_gtiff := some (staleAfter "s" ["HH"] 32611 [prodA5, prodB5] [32610, 32611] "t") }) :=
  c9_conforming_untouched "s" ["HH"] 32611 [prodA5, prodB5] [32610, 32611]
    { output_gtiff := some "t" } "t" (by decide) (by decide) rfl

/-! ### Lemmas about the staging and layover loops (used for claim C4) -/

/-- All `write_rtc_geotiff` locals that later loops may read are bound. -/
def StFull (st : PyLocals) : Prop :=
  st.output_gtiff.isSome = true ∧ st.num_rows.isSome = true ∧
  st.num_cols.isSome = true ∧ st.geotransform.isSome = true ∧
  st.crs.isSome = true ∧ st.dswx_metadata_dict.isSome = true ∧
  st.row_blk_size.isSome = true ∧ st.col_blk_size.isSome = true

/-- The locals after the inner staging loop of one input. -/
def stageInnerSt (scratch pfx : String) (p : InputProduct) (rbs cbs : Nat)
    (st : PyLocals) : List String → PyLocals
  | [] => st
  | d :: rest => stageInnerSt scratch pfx p rbs cbs
      { st with output_gtiff := some (chanTif scratch pfx d), num_rows := some p.chanRows,
                num_cols := some p.chanCols, row_blk_size := some rbs,
                col_blk_size := some cbs } rest

theorem stageInner_spec (scratch pfx : String) (p : InputProduct) (rbs cbs : Nat) :
    ∀ (dps : List String) (st : PyLocals),
      stageInner scratch pfx p rbs cbs st dps
        = .ok (dps.map (fun d => Ev.writeRaster (chanTif scratch pfx d) p.chanRows
            p.chanCols p.geotransform ("EPSG:" ++ toString p.epsg) p.metadata),
          stageInnerSt scratch pfx p rbs cbs st dps) := by
  intro dps
  induction dps with
  | nil => intro st; rfl
  | cons d rest ih =>
    intro st
    simp [stageInner, stageInnerSt, pemit, pbind, ih]

theorem stageInnerSt_mono (scratch pfx : String) (p : InputProduct) (rbs cbs : Nat) :
    ∀ (dps : List String) (st : PyLocals), StFull st →
      StFull (stageInnerSt scratch pfx p rbs cbs st dps) := by
  intro dps
  induction dps with
  | nil => intro st h; exact h
  | cons d rest ih =>
    intro st h
    exact ih _ ⟨rfl, rfl, rfl, h.2.2.2.1, h.2.2.2.2.1, h.2.2.2.2.2.1, rfl, rfl⟩

theorem stageInnerSt_full (scratch pfx : String) (p : InputProduct) (rbs cbs : Nat) :
    ∀ (dps : List String) (st : PyLocals), dps ≠ [] →
      st.geotransform.isSome = true → st.crs.isSome = true →
      st.dswx_metadata_dict.isSome = true →
      StFull (stageInnerSt scratch pfx p rbs cbs st dps) := by
  intro dps
  induction dps with
  | nil => intro st h _ _ _; exact absurd rfl h
  | cons d rest ih =>
    intro st _ hg hc hm
    cases rest with
    | nil => exact ⟨rfl, rfl, rfl, hg, hc, hm, rfl, rfl⟩
    | cons d2 rest2 => exact ih _ (by simp) hg hc hm

theorem stageOuter_ok (scratch : String) (dps : List String) (rbs cbs : Nat) :
    ∀ (inputs : List InputProduct) (st : PyLocals),
      (∀ p ∈ inputs, p.onDisk = true) →
      ∃ evs st', stageOuter scratch dps rbs cbs st inputs = .ok (evs, st') ∧
        (StFull st → StFull st') ∧
        (inputs ≠ [] → dps ≠ [] → StFull st') := by
  intro inputs
  induction inputs with
  | nil =>
    intro st _
    exact ⟨[], st, rfl, fun h => h, fun h => absurd rfl h⟩
  | cons p rest ih =>
    intro st hdisk
    have hp : p.onDisk = true := hdisk p (by simp)
    obtain ⟨evs', st', hok, hmono, hfull⟩ :=
      ih (stageInnerSt scratch (file_name_of p.path) p rbs cbs
          { st with geotransform := some (read_geodata_hdf5 p).1,
                    crs := some (read_geodata_hdf5 p).2,
                    dswx_metadata_dict := some (read_metadata_hdf5 p) } dps)
        (fun q hq => hdisk q (List.mem_cons_of_mem _ hq))
    refine ⟨(dps.map fun d => Ev.writeRaster (chanTif scratch (file_name_of p.path) d)
        p.chanRows p.chanCols p.geotransform ("EPSG:" ++ toString p.epsg) p.metadata)
        ++ evs', st', ?_, ?_, ?_⟩
    · simp only [stageOuter, extract_file_name, hp, if_true]
      rw [pbind_pure]
      rw [stageInner_spec]
      rw [pbind_ok, hok, prependEvs_ok]
    · intro h
      refine hmono ?_
      exact stageInnerSt_mono scratch (file_name_of p.path) p rbs cbs dps _
        ⟨h.1, h.2.1, h.2.2.1, rfl, rfl, rfl, h.2.2.2.2.2.2.1, h.2.2.2.2.2.2.2⟩
    · intro _ hdps
      refine hmono ?_
      exact stageInnerSt_full scratch (file_name_of p.path) p rbs cbs dps _ hdps rfl rfl rfl

theorem layoverLoop_ok (scratch lpath : String) (mfe : Int) (cbs : Nat) :
    ∀ (inputs : List InputProduct) (epsgs : List Int) (st : PyLocals),
      (∀ p ∈ inputs, p.onDisk = true) → inputs.length ≤ epsgs.length → StFull st →
      ∃ evs st', layoverLoop scratch lpath mfe cbs inputs epsgs st = .ok (evs, st') ∧
        st'.layover_exist
          = (if inputs = [] then st.layover_exist
             else some (inputs.all (fun p => p.hasLayover))) := by
  intro inputs
  induction inputs with
  | nil =>
    intro epsgs st _ _ _
    exact ⟨[], st, rfl, by simp⟩
  | cons p rest ih =>
    intro epsgs st hdisk hlen hfull
    match epsgs with
    | [] => simp at hlen
    | e :: es =>
      have hp : p.onDisk = true := hdisk p (by simp)
      have hdisk' : ∀ q ∈ rest, q.onDisk = true :=
        fun q hq => hdisk q (List.mem_cons_of_mem _ hq)
      have hlen' : rest.length ≤ es.length := by simpa using hlen
      by_cases hl : p.hasLayover = true
      · obtain ⟨nr, hnr⟩ := Option.isSome_iff_exists.mp hfull.2.1
        obtain ⟨rb, hrb⟩ := Option.isSome_iff_exists.mp hfull.2.2.2.2.2.2.1
        obtain ⟨gt, hgt⟩ := Option.isSome_iff_exists.mp hfull.2.2.2.1
        obtain ⟨c, hc2⟩ := Option.isSome_iff_exists.mp hfull.2.2.2.2.1
        obtain ⟨md, hmd⟩ := Option.isSome_iff_exists.mp hfull.2.2.2.2.2.1
        have hfullY : StFull
            { st with layover_exist := some true, num_cols := some p.layCols,
                      col_blk_size := some cbs } :=
          ⟨hfull.1, hfull.2.1, rfl, hfull.2.2.2.1, hfull.2.2.2.2.1,
            hfull.2.2.2.2.2.1, hfull.2.2.2.2.2.2.1, rfl⟩
        obtain ⟨evs', st', hrec, hle⟩ :=
          ih es
            { st with layover_exist := some true, num_cols := some p.layCols,
                      col_blk_size := some cbs } hdisk' hlen' hfullY
        refine ⟨Ev.writeRaster (layTif scratch (file_name_of p.path)) nr p.layCols gt c md
          :: ((if e ≠ mfe then
                [Ev.changeEpsg (layTif scratch (file_name_of p.path))
                  (layTempTif scratch (file_name_of p.path)) mfe 255,
                 Ev.updateGeogrid (layTif scratch (file_name_of p.path)),
                 Ev.replaceFile (layTempTif scratch (file_name_of p.path))
                  (layTif scratch (file_name_of p.path))]
              else [Ev.updateGeogrid (layTif scratch (file_name_of p.path))]) ++ evs'),
          st', ?_, ?_⟩
        · rw [hnr, hrb, hgt, hc2, hmd] at hrec
          by_cases hc : e ≠ mfe <;>
            simp [layoverLoop, hl, hp, extract_file_name, pread, pemit, pbind,
              hnr, hrb, hgt, hc2, hmd, hc, hrec]
        · rw [hle]
          cases rest with
          | nil => simp [hl]
          | cons q qs => simp [hl]
      · refine ⟨[Ev.warnLayover ("HDF5:" ++ p.path ++ ":/" ++ lpath)],
          { st with layover_exist := some false }, ?_, ?_⟩
        · simp [layoverLoop, hl, pemit, pbind]
        · have hl' : p.hasLayover = false := by simpa using hl
          simp [hl']

/-! ### The mosaicking step and claim C4 (amended) -/

theorem gatherChanTifs_ok (scratch d : String) :
    ∀ inputs : List InputProduct, (∀ p ∈ inputs, p.onDisk = true) →
      gatherChanTifs scratch d inputs
        = .ok ([], inputs.map (fun p => chanTif scratch (file_name_of p.path) d)) := by
  intro inputs
  induction inputs with
  | nil => intro _; rfl
  | cons p rest ih =>
    intro hdisk
    have hp : p.onDisk = true := hdisk p (by simp)
    simp [gatherChanTifs, extract_file_name, hp, pbind,
      ih (fun q hq => hdisk q (List.mem_cons_of_mem _ hq))]

theorem gatherLayTifs_ok (scratch : String) :
    ∀ inputs : List InputProduct, (∀ p ∈ inputs, p.onDisk = true) →
      gatherLayTifs scratch inputs
        = .ok ([], inputs.map (fun p => layTif scratch (file_name_of p.path))) := by
  intro inputs
  induction inputs with
  | nil => intro _; rfl
  | cons p rest ih =>
    intro hdisk
    have hp : p.onDisk = true := hdisk p (by simp)
    simp [gatherLayTifs, extract_file_name, hp, pbind,
      ih (fun q hq => hdisk q (List.mem_cons_of_mem _ hq))]

/-- The per-channel mosaic invocations performed by `mosaic_rtc_geotiff`:
one per dataset path, over the intermediate rasters of *all* inputs. -/
def chanMosaicEvs (inputs : List InputProduct) (output_dir scratch mode mfx : String)
    (data_path : List String) : List Ev :=
  data_path.map (fun d =>
    Ev.mosaic (output_dir ++ "/" ++ mfx ++ "_" ++ dataNameOf d ++ ".tif")
      (inputs.map (fun p => chanTif scratch (file_name_of p.path) d)) mode)

/-- The layover mosaic invocation, over the layover rasters of *all*
inputs. -/
def layMosaicEv (inputs : List InputProduct) (output_dir scratch mode mfx : String) : Ev :=
  .mosaic (output_dir ++ "/" ++ mfx ++ "_layover.tif")
    (inputs.map (fun p => layTif scratch (file_name_of p.path))) mode

theorem mosaicChanLoop_spec (inputs : List InputProduct)
    (odir scratch mode mfx : String)
    (hdisk : ∀ p ∈ inputs, p.onDisk = true) :
    ∀ dps : List String, mosaicChanLoop inputs odir scratch mode mfx dps
      = .ok (chanMosaicEvs inputs odir scratch mode mfx dps, ()) := by
  intro dps
  induction dps with
  | nil => rfl
  | cons d rest ih =>
    simp [mosaicChanLoop, chanMosaicEvs, pemit, pbind,
      gatherChanTifs_ok scratch d inputs hdisk, ih]

theorem mosaic_rtc_geotiff_spec (inputs : List InputProduct) (dps : List String)
    (odir scratch mode mfx : String) (le : Bool)
    (hdisk : ∀ p ∈ inputs, p.onDisk = true) :
    mosaic_rtc_geotiff inputs dps odir scratch mode mfx le
      = .ok (chanMosaicEvs inputs odir scratch mode mfx dps
          ++ (if le then [layMosaicEv inputs odir scratch mode mfx] else []), ()) := by
  cases le with
  | false =>
    simp [mosaic_rtc_geotiff, mosaicChanLoop_spec inputs odir scratch mode mfx hdisk dps,
      pbind]
  | true =>
    simp [mosaic_rtc_geotiff, mosaicChanLoop_spec inputs odir scratch mode mfx hdisk dps,
      gatherLayTifs_ok scratch inputs hdisk, pemit, pbind, layMosaicEv]

theorem write_rtc_geotiff_layover (rbs cbs : Nat) (inputs : List InputProduct)
    (odir scratch : String) (epsgs : List Int) (dps : List String) (lpath : String)
    (maj : List Int → Int)
    (hne : inputs ≠ []) (hdps : dps ≠ [])
    (hdisk : ∀ p ∈ inputs, p.onDisk = true)
    (hlen : inputs.length ≤ epsgs.length) :
    ∃ evs st, write_rtc_geotiff rbs cbs inputs odir scratch epsgs dps lpath maj
      = .ok (evs, (inputs.all (fun p => p.hasLayover), st)) := by
  obtain ⟨evs1, st1, hok1, _, hfull1⟩ := stageOuter_ok scratch dps rbs cbs inputs {} hdisk
  have hfullSt1 : StFull st1 := hfull1 hne hdps
  obtain ⟨stale, hstale⟩ := Option.isSome_iff_exists.mp hfullSt1.1
  have hok2 := harmonizeOuter_spec scratch dps (maj epsgs) inputs epsgs st1 stale
    hdisk hlen hstale
  have hfull2 : StFull
      { st1 with output_gtiff := some (staleAfter scratch dps (maj epsgs) inputs epsgs stale) } :=
    ⟨rfl, hfullSt1.2.1, hfullSt1.2.2.1, hfullSt1.2.2.2.1, hfullSt1.2.2.2.2.1,
      hfullSt1.2.2.2.2.2.1, hfullSt1.2.2.2.2.2.2.1, hfullSt1.2.2.2.2.2.2.2⟩
  obtain ⟨evs3, st3, hok3, hle⟩ := layoverLoop_ok scratch lpath (maj epsgs) cbs inputs epsgs
    { st1 with output_gtiff := some (staleAfter scratch dps (maj epsgs) inputs epsgs stale) }
    hdisk hlen hfull2
  have hle3 : st3.layover_exist = some (inputs.all (fun p => p.hasLayover)) := by
    rw [hle]
    simp [hne]
  refine ⟨evs1 ++ harmonizeSpecTrace scratch dps (maj epsgs) inputs epsgs stale ++ evs3,
    st3, ?_⟩
  simp only [write_rtc_geotiff]
  rw [hok1, pbind_ok, hok2, pbind_ok, hok3, pbind_ok]
  simp [pread, hle3, pbind, prependEvs]

/-- C4 (amended): the layover mosaic is produced iff *every* input exposes
the layover mask.  `write_rtc_geotiff` returns
`layover_exist = all inputs expose the mask` (its layover loop breaks with
`False` on the first input lacking the mask, even if earlier inputs had it),
and `mosaic_rtc_geotiff` then always performs the per-channel mosaics (over
all inputs) and performs the layover mosaic — over *all* inputs' layover
rasters, not only those that had the mask — exactly when `layover_exist` is
true; when some input lacks the mask, layover mosaicking is skipped without
error. -/
theorem c4_layover_mosaic_amended (rbs cbs : Nat) (inputs : List InputProduct)
    (odir scratch : String) (epsgs : List Int) (dps : List String)
    (lpath mode mfx : String) (maj : List Int → Int)
    (hne : inputs ≠ []) (hdps : dps ≠ [])
    (hdisk : ∀ p ∈ inputs, p.onDisk = true)
    (hlen : inputs.length ≤ epsgs.length) :
    ∃ evs st, write_rtc_geotiff rbs cbs inputs odir scratch epsgs dps lpath maj
        = .ok (evs, (inputs.all (fun p => p.hasLayover), st)) ∧
      mosaic_rtc_geotiff inputs dps odir scratch mode mfx
          (inputs.all (fun p => p.hasLayover))
        = .ok (chanMosaicEvs inputs odir scratch mode mfx dps
            ++ (if inputs.all (fun p => p.hasLayover) then
                  [layMosaicEv inputs odir scratch mode mfx] else []), ()) := by
  obtain ⟨evs, st, h⟩ :=
    write_rtc_geotiff_layover rbs cbs inputs odir scratch epsgs dps lpath maj
      hne hdps hdisk hlen
  exact ⟨evs, st, h,
    mosaic_rtc_geotiff_spec inputs dps odir scratch mode mfx _ hdisk⟩

/-- C4 amended, witnessed: with input `a` exposing the mask and input `b`
lacking it, `layover_exist` is `false` and the mosaic step performs exactly
the channel mosaic, no layover mosaic. -/
theorem c4_layover_mosaic_amended_witness :
    ∃ evs st, write_rtc_geotiff 2 2 [pLay, pNoLay] "o" "s" [32610, 32610] ["HH"] "L"
        (fun l => l.headD 0)
        = .ok (evs, ([pLay, pNoLay].all (fun p => p.hasLayover), st)) ∧
      mosaic_rtc_geotiff [pLay, pNoLay] ["HH"] "o" "s" "first" "m"
          ([pLay, pNoLay].all (fun p => p.hasLayover))
        = .ok (chanMosaicEvs [pLay, pNoLay] "o" "s" "first" "m" ["HH"]
            ++ (if [pLay, pNoLay].all (fun p => p.hasLayover) then
                  [layMosaicEv [pLay, pNoLay] "o" "s" "first" "m"] else []), ()) :=
  c4_layover_mosaic_amended 2 2 [pLay, pNoLay] "o" "s" [32610, 32610] ["HH"] "L"
    "first" "m" (fun l => l.headD 0) (by decide) (by decide) (by decide) (by decide)

end DswxMosaic
